import Mathlib

/-!
Shallow embedding of the `trogonerror` Go package: the structured error
value (`TrogonError`), its construction options, copy-on-write changes,
deterministic formatter, identity comparison, templates, and the
chain-extraction helper.  Go maps are embedded as association lists kept
sorted by key (a canonical representative of the unordered finite map);
Go `time.Time` / `time.Duration` values are embedded as the strings the
formatter renders them to (their formatting is outside this package).
-/

namespace Trogon

/-- Go `Code` is a named integer type. -/
abbrev Code := Int

def CodeCancelled : Code := 1
def CodeUnknown : Code := 2
def CodeInvalidArgument : Code := 3
def CodeDeadlineExceeded : Code := 4
def CodeNotFound : Code := 5
def CodeAlreadyExists : Code := 6
def CodePermissionDenied : Code := 7
def CodeResourceExhausted : Code := 8
def CodeFailedPrecondition : Code := 9
def CodeAborted : Code := 10
def CodeOutOfRange : Code := 11
def CodeUnimplemented : Code := 12
def CodeInternal : Code := 13
def CodeUnavailable : Code := 14
def CodeDataLoss : Code := 15
def CodeUnauthenticated : Code := 16

/-- Go `Visibility` is a named integer type. -/
abbrev Visibility := Int

def VisibilityInternal : Visibility := 0
def VisibilityPrivate : Visibility := 1
def VisibilityPublic : Visibility := 2

/-- `Code.Message`: the fixed default message for each code. -/
def Code.message (c : Code) : String :=
  match c with
  | 1 => "the operation was cancelled"
  | 2 => "unknown error"
  | 3 => "invalid argument provided"
  | 4 => "deadline exceeded"
  | 5 => "resource not found"
  | 6 => "resource already exists"
  | 7 => "permission denied"
  | 16 => "unauthenticated"
  | 8 => "resource exhausted"
  | 9 => "failed precondition"
  | 10 => "operation aborted"
  | 11 => "out of range"
  | 12 => "not implemented"
  | 13 => "internal error"
  | 14 => "service unavailable"
  | 15 => "data loss or corruption"
  | _ => "unknown error"

/-- `Code.HttpStatusCode`: the fixed status for each code, 500 by default. -/
def Code.httpStatusCode (c : Code) : Int :=
  match c with
  | 1 => 499
  | 2 => 500
  | 3 => 400
  | 4 => 504
  | 5 => 404
  | 6 => 409
  | 7 => 403
  | 8 => 429
  | 9 => 400
  | 10 => 409
  | 11 => 400
  | 12 => 501
  | 13 => 500
  | 14 => 503
  | 15 => 500
  | 16 => 401
  | _ => 500

/-- `Code.String`: the fixed name for each code, "UNKNOWN" by default. -/
def Code.string (c : Code) : String :=
  match c with
  | 1 => "CANCELLED"
  | 2 => "UNKNOWN"
  | 3 => "INVALID_ARGUMENT"
  | 4 => "DEADLINE_EXCEEDED"
  | 5 => "NOT_FOUND"
  | 6 => "ALREADY_EXISTS"
  | 7 => "PERMISSION_DENIED"
  | 8 => "RESOURCE_EXHAUSTED"
  | 9 => "FAILED_PRECONDITION"
  | 10 => "ABORTED"
  | 11 => "OUT_OF_RANGE"
  | 12 => "UNIMPLEMENTED"
  | 13 => "INTERNAL"
  | 14 => "UNAVAILABLE"
  | 15 => "DATA_LOSS"
  | 16 => "UNAUTHENTICATED"
  | _ => "UNKNOWN"

/-- `Visibility.String`. -/
def Visibility.string (v : Visibility) : String :=
  match v with
  | 0 => "INTERNAL"
  | 1 => "PRIVATE"
  | 2 => "PUBLIC"
  | _ => "UNKNOWN"

/-- `HelpLink` value object. -/
structure HelpLink where
  description : String
  url : String
deriving DecidableEq, Repr

/-- `Help` value object: an ordered list of links. -/
structure Help where
  links : List HelpLink
deriving DecidableEq, Repr

/-- `MetadataValue`: a string value tagged with a visibility. -/
structure MetadataValue where
  value : String
  visibility : Visibility
deriving DecidableEq, Repr

/-- Go `Metadata = map[string]MetadataValue`, embedded as an association
list kept sorted by key with no duplicate keys (the canonical
representative of the unordered Go map). -/
abbrev Metadata := List (String × MetadataValue)

/-- Decide `String` order by the structural list comparison (the
iterator-based procedure does not evaluate inside the kernel). -/
instance (priority := high) (a b : String) : Decidable (a < b) :=
  decidable_of_iff (a.toList < b.toList) String.lt_iff_toList_lt.symm

/-- Go map write `m[k] = v`: replaces the binding if the key is present,
otherwise inserts it at its sorted position. -/
def mdInsert (m : Metadata) (k : String) (v : MetadataValue) : Metadata :=
  match m with
  | [] => [(k, v)]
  | (k', v') :: rest =>
    if k < k' then (k, v) :: (k', v') :: rest
    else if k = k' then (k, v) :: rest
    else (k', v') :: mdInsert rest k v

/-- Go map read `m[k]` as an option. -/
def mdLookup (m : Metadata) (k : String) : Option MetadataValue :=
  match m with
  | [] => none
  | (k', v') :: rest => if k = k' then some v' else mdLookup rest k

/-- Go `maps.Copy(dst, src)`: writes every binding of `src` into `dst`. -/
def mdCopy (dst src : Metadata) : Metadata :=
  src.foldl (fun d p => mdInsert d p.1 p.2) dst

/-- Well-formedness of the canonical map representation: keys strictly
ascending (hence no duplicates). -/
def MDWf (m : Metadata) : Prop := List.Pairwise (fun p q => p.1 < q.1) m

instance (m : Metadata) : Decidable (MDWf m) := by
  unfold MDWf; infer_instance

/-- A captured `runtime.Frame` (the fields the package reads). -/
structure Frame where
  file : String
  line : Int
  function : String
deriving DecidableEq, Repr

/-- `DebugInfo` value object. -/
structure DebugInfo where
  stackFrames : List Frame
  detail : String
deriving DecidableEq, Repr

/-- `LocalizedMessage` value object. -/
structure LocalizedMessage where
  locale : String
  message : String
deriving DecidableEq, Repr

/-- Go `time.Duration`, embedded as the string its `String()` renders to. -/
structure Duration where
  string : String
deriving DecidableEq, Repr

/-- Go `time.Time`, embedded as the string its RFC3339 formatting renders
to. -/
structure GoTime where
  rfc3339 : String
deriving DecidableEq, Repr

/-- `RetryInfo`: per the ADR either a relative offset or an absolute
time. -/
structure RetryInfo where
  retryOffset : Option Duration
  retryTime : Option GoTime
deriving DecidableEq, Repr

mutual
/-- The `TrogonError` aggregate.  Field order follows the Go struct:
specVersion, code, message, domain, reason, metadata, causes, visibility,
subject, id, time, help, debugInfo, localizedMessage, retryInfo,
sourceID, wrappedErr. -/
inductive TrogonError : Type where
  | mk
    (specVersion : Int)
    (code : Code)
    (message : String)
    (domain : String)
    (reason : String)
    (metadata : Metadata)
    (causes : List TrogonError)
    (visibility : Visibility)
    (subject : String)
    (id : String)
    (time : Option GoTime)
    (help : Option Help)
    (debugInfo : Option DebugInfo)
    (localizedMessage : Option LocalizedMessage)
    (retryInfo : Option RetryInfo)
    (sourceID : String)
    (wrappedErr : Option GoError)

/-- A Go `error` interface value as this package can observe it: either a
`*TrogonError` or an external error exposing a message and an optional
`Unwrap()` link. -/
inductive GoError : Type where
  | trogon (e : TrogonError)
  | ext (msg : String) (unwrapped : Option GoError)
end

namespace TrogonError

def specVersion : TrogonError → Int
  | .mk sv _ _ _ _ _ _ _ _ _ _ _ _ _ _ _ _ => sv

def code : TrogonError → Code
  | .mk _ c _ _ _ _ _ _ _ _ _ _ _ _ _ _ _ => c

def message : TrogonError → String
  | .mk _ _ m _ _ _ _ _ _ _ _ _ _ _ _ _ _ => m

def domain : TrogonError → String
  | .mk _ _ _ d _ _ _ _ _ _ _ _ _ _ _ _ _ => d

def reason : TrogonError → String
  | .mk _ _ _ _ r _ _ _ _ _ _ _ _ _ _ _ _ => r

def metadata : TrogonError → Metadata
  | .mk _ _ _ _ _ md _ _ _ _ _ _ _ _ _ _ _ => md

def causes : TrogonError → List TrogonError
  | .mk _ _ _ _ _ _ cs _ _ _ _ _ _ _ _ _ _ => cs

def visibility : TrogonError → Visibility
  | .mk _ _ _ _ _ _ _ v _ _ _ _ _ _ _ _ _ => v

def subject : TrogonError → String
  | .mk _ _ _ _ _ _ _ _ s _ _ _ _ _ _ _ _ => s

def id : TrogonError → String
  | .mk _ _ _ _ _ _ _ _ _ i _ _ _ _ _ _ _ => i

def time : TrogonError → Option GoTime
  | .mk _ _ _ _ _ _ _ _ _ _ t _ _ _ _ _ _ => t

def help : TrogonError → Option Help
  | .mk _ _ _ _ _ _ _ _ _ _ _ h _ _ _ _ _ => h

def debugInfo : TrogonError → Option DebugInfo
  | .mk _ _ _ _ _ _ _ _ _ _ _ _ dbg _ _ _ _ => dbg

def localizedMessage : TrogonError → Option LocalizedMessage
  | .mk _ _ _ _ _ _ _ _ _ _ _ _ _ lm _ _ _ => lm

def retryInfo : TrogonError → Option RetryInfo
  | .mk _ _ _ _ _ _ _ _ _ _ _ _ _ _ ri _ _ => ri

def sourceID : TrogonError → String
  | .mk _ _ _ _ _ _ _ _ _ _ _ _ _ _ _ src _ => src

def wrappedErr : TrogonError → Option GoError
  | .mk _ _ _ _ _ _ _ _ _ _ _ _ _ _ _ _ w => w

/-- `TrogonError.Message()`: the message, falling back to the code's
default message when empty. -/
def Message (e : TrogonError) : String :=
  if e.message ≠ "" then e.message else Code.message e.code

end TrogonError

/-- `DebugInfo.StackEntries`: each frame as `<file>:<line> <function>`. -/
def DebugInfo.stackEntries (d : DebugInfo) : List String :=
  d.stackFrames.map fun f => f.file ++ ":" ++ toString f.line ++ " " ++ f.function

/-- Go `unicode.IsSpace` on the characters `strings.TrimSpace` strips
(the Latin-1 white-space set; the rarer Unicode space code points are
outside this embedding's alphabet of interest). -/
def goIsSpace (c : Char) : Bool :=
  c = ' ' || c = '\t' || c = '\n' || c = (Char.ofNat 11) || c = (Char.ofNat 12)
    || c = '\r' || c = (Char.ofNat 0x85) || c = (Char.ofNat 0xA0)

/-- Go `strings.TrimSpace`: drops leading and trailing white space. -/
def trimSpace (s : String) : String :=
  ⟨(((s.data.dropWhile goIsSpace).reverse.dropWhile goIsSpace).reverse : List Char)⟩

/-- The first five lines of `Error()`: trimmed message, then visibility,
domain, reason and code. -/
def firstFiveSection (e : TrogonError) : String :=
  trimSpace (TrogonError.Message e)
    ++ "\n  visibility: " ++ Visibility.string e.visibility
    ++ "\n  domain: " ++ e.domain
    ++ "\n  reason: " ++ e.reason
    ++ "\n  code: " ++ Code.string e.code

/-- The conditional scalar lines of `Error()`: id, time, subject,
sourceId, retryInfo. -/
def optFieldsSection (e : TrogonError) : String :=
  (if e.id ≠ "" then "\n  id: " ++ e.id else "")
    ++ (match e.time with
        | some t => "\n  time: " ++ t.rfc3339
        | none => "")
    ++ (if e.subject ≠ "" then "\n  subject: " ++ e.subject else "")
    ++ (if e.sourceID ≠ "" then "\n  sourceId: " ++ e.sourceID else "")
    ++ (match e.retryInfo with
        | some ri =>
          "\n  retryInfo: " ++
            (match ri.retryOffset with
             | some off => "retryOffset=" ++ off.string
             | none =>
               match ri.retryTime with
               | some t => "retryTime=" ++ t.rfc3339
               | none => "")
        | none => "")

/-- One rendered metadata line (reading the map returns the zero
`MetadataValue` for an absent key, as in Go). -/
def mdLine (m : Metadata) (k : String) : String :=
  let v := (mdLookup m k).getD ⟨"", 0⟩
  "\n    - " ++ k ++ ": " ++ v.value ++ " visibility=" ++ Visibility.string v.visibility

/-- The metadata section of `Error()`: a header then one line per key in
sorted order (`slices.Sorted(maps.Keys(e.metadata))`). -/
def metaSection (m : Metadata) : String :=
  if m.length > 0 then
    "\n  metadata:" ++
      String.join ((List.insertionSort (· ≤ ·) (m.map Prod.fst)).map (mdLine m))
  else ""

/-- The help section of `Error()`: a blank line then one link per line. -/
def helpSection (h : Option Help) : String :=
  match h with
  | some hp =>
    if hp.links.length > 0 then
      "\n\n" ++ String.intercalate "\n"
        (hp.links.map fun l => "- " ++ l.description ++ ": " ++ l.url)
    else ""
  | none => ""

/-- The debug section of `Error()`. -/
def debugSection (d : Option DebugInfo) : String :=
  match d with
  | some di =>
    "\n" ++ (if di.detail ≠ "" then "\n" ++ di.detail else "")
      ++ String.join (di.stackEntries.map ("\n" ++ ·))
  | none => ""

mutual
/-- `TrogonError.Error()`: the deterministic multi-section rendering. -/
def TrogonError.Error : TrogonError → String
  | e@(.mk _ _ _ _ _ md _ _ _ _ _ hp dbg _ _ _ w) =>
    firstFiveSection e ++ optFieldsSection e ++ metaSection md ++ helpSection hp
      ++ wrapSection w ++ debugSection dbg

/-- The wrapped-error section of `Error()`. -/
def wrapSection : Option GoError → String
  | some g => "\n\nwrapped error: " ++ GoError.errorString g
  | none => ""

/-- A Go `error`'s `Error()` string. -/
def GoError.errorString : GoError → String
  | .trogon e => TrogonError.Error e
  | .ext m _ => m
end

theorem Error_eq (e : TrogonError) :
    e.Error = firstFiveSection e ++ optFieldsSection e ++ metaSection e.metadata
      ++ helpSection e.help ++ wrapSection e.wrappedErr ++ debugSection e.debugInfo := by
  cases e
  rfl

/-- `errors.Is` over the wrapped chain, as the Go standard library walks
it: a layer matches if it is the target (for a layer of this package's
type, its own `Is` comparison), else its unwrap link is followed. -/
def goErrorsIs : Option GoError → GoError → Bool
  | none, _ => false
  | some (.trogon (.mk _ _ _ d r _ _ _ _ _ _ _ _ _ _ _ w)), t =>
    (match t with
     | .trogon b => d == b.domain && r == b.reason
     | _ => false)
    || goErrorsIs w t
  | some (.ext m u), t =>
    (match t with
     | .ext m' _ => m == m'
     | _ => false)
    || goErrorsIs u t

/-- `TrogonError.Is`: identity comparison when the target is a
`TrogonError`, delegation to the wrapped chain otherwise. -/
def TrogonError.Is (e : TrogonError) (target : GoError) : Bool :=
  match target with
  | .trogon t => e.domain == t.domain && e.reason == t.reason
  | .ext .. => goErrorsIs e.wrappedErr target

/-- `TrogonError.Unwrap`. -/
def TrogonError.Unwrap (e : TrogonError) : Option GoError := e.wrappedErr

/-- The record field written by a construction option. -/
inductive Field : Type where
  | code | message | metadata | visibility | subject | id | time | sourceID
  | help | debugInfo | localizedMessage | retryInfo | causes | wrappedErr
deriving DecidableEq, Repr

/-- The package's `ErrorOption` constructors.  The `...f` printf variants
are the plain variants applied to the pre-formatted string.
`withStackTraceDepth` carries the frames `captureStackTrace` returned
(reading the runtime call stack is outside this embedding). -/
inductive ErrorOption : Type where
  | withCode (code : Code)
  | withMessage (message : String)
  | withMetadata (metadata : Metadata)
  | withMetadataValue (visibility : Visibility) (key value : String)
  | withVisibility (visibility : Visibility)
  | withSubject (subject : String)
  | withID (id : String)
  | withTime (timestamp : GoTime)
  | withSourceID (sourceID : String)
  | withHelp (help : Help)
  | withHelpLink (description url : String)
  | withDebugInfo (debugInfo : DebugInfo)
  | withDebugDetail (detail : String)
  | withStackTraceDepth (stackFrames : List Frame)
  | withLocalizedMessage (locale message : String)
  | withRetryInfoDuration (retryOffset : Duration)
  | withRetryTime (retryTime : GoTime)
  | withCause (causes : List TrogonError)
  | withErrorMessage (err : GoError)
  | withWrap (err : GoError)

/-- `addMetadataValue`: allocate-if-empty then write the key. -/
def addMetadataValue (m : Metadata) (visibility : Visibility) (key value : String) :
    Metadata :=
  mdInsert m key ⟨value, visibility⟩

/-- `addHelpLink`: allocate-if-nil then append the link. -/
def addHelpLink (h : Option Help) (description url : String) : Option Help :=
  match h with
  | none => some ⟨[⟨description, url⟩]⟩
  | some hp => some ⟨hp.links ++ [⟨description, url⟩]⟩

namespace TrogonError

def setCode (c : Code) : TrogonError → TrogonError
  | .mk sv _ m d r md cs v s i t h dbg lm ri src w => .mk sv c m d r md cs v s i t h dbg lm ri src w

def setMessage (m : String) : TrogonError → TrogonError
  | .mk sv c _ d r md cs v s i t h dbg lm ri src w => .mk sv c m d r md cs v s i t h dbg lm ri src w

def setMetadata (md : Metadata) : TrogonError → TrogonError
  | .mk sv c m d r _ cs v s i t h dbg lm ri src w => .mk sv c m d r md cs v s i t h dbg lm ri src w

def setCauses (cs : List TrogonError) : TrogonError → TrogonError
  | .mk sv c m d r md _ v s i t h dbg lm ri src w => .mk sv c m d r md cs v s i t h dbg lm ri src w

def setVisibility (v : Visibility) : TrogonError → TrogonError
  | .mk sv c m d r md cs _ s i t h dbg lm ri src w => .mk sv c m d r md cs v s i t h dbg lm ri src w

def setSubject (s : String) : TrogonError → TrogonError
  | .mk sv c m d r md cs v _ i t h dbg lm ri src w => .mk sv c m d r md cs v s i t h dbg lm ri src w

def setID (i : String) : TrogonError → TrogonError
  | .mk sv c m d r md cs v s _ t h dbg lm ri src w => .mk sv c m d r md cs v s i t h dbg lm ri src w

def setTime (t : Option GoTime) : TrogonError → TrogonError
  | .mk sv c m d r md cs v s i _ h dbg lm ri src w => .mk sv c m d r md cs v s i t h dbg lm ri src w

def setHelp (h : Option Help) : TrogonError → TrogonError
  | .mk sv c m d r md cs v s i t _ dbg lm ri src w => .mk sv c m d r md cs v s i t h dbg lm ri src w

def setDebugInfo (dbg : Option DebugInfo) : TrogonError → TrogonError
  | .mk sv c m d r md cs v s i t h _ lm ri src w => .mk sv c m d r md cs v s i t h dbg lm ri src w

def setLocalizedMessage (lm : Option LocalizedMessage) : TrogonError → TrogonError
  | .mk sv c m d r md cs v s i t h dbg _ ri src w => .mk sv c m d r md cs v s i t h dbg lm ri src w

def setRetryInfo (ri : Option RetryInfo) : TrogonError → TrogonError
  | .mk sv c m d r md cs v s i t h dbg lm _ src w => .mk sv c m d r md cs v s i t h dbg lm ri src w

def setSourceID (src : String) : TrogonError → TrogonError
  | .mk sv c m d r md cs v s i t h dbg lm ri _ w => .mk sv c m d r md cs v s i t h dbg lm ri src w

def setWrappedErr (w : Option GoError) : TrogonError → TrogonError
  | .mk sv c m d r md cs v s i t h dbg lm ri src _ => .mk sv c m d r md cs v s i t h dbg lm ri src w

end TrogonError

/-- Application of one construction option (the body of the Go closure
each `With...` returns). -/
def applyOpt (o : ErrorOption) (e : TrogonError) : TrogonError :=
  match o with
  | .withCode c => e.setCode c
  | .withMessage m => e.setMessage m
  | .withMetadata md => e.setMetadata (mdCopy e.metadata md)
  | .withMetadataValue vis k v => e.setMetadata (addMetadataValue e.metadata vis k v)
  | .withVisibility v => e.setVisibility v
  | .withSubject s => e.setSubject s
  | .withID i => e.setID i
  | .withTime t => e.setTime (some t)
  | .withSourceID src => e.setSourceID src
  | .withHelp h => e.setHelp (some h)
  | .withHelpLink d u => e.setHelp (addHelpLink e.help d u)
  | .withDebugInfo dbg => e.setDebugInfo (some dbg)
  | .withDebugDetail detail =>
    e.setDebugInfo (match e.debugInfo with
      | none => some ⟨[], detail⟩
      | some di => some ⟨di.stackFrames, detail⟩)
  | .withStackTraceDepth frames =>
    e.setDebugInfo (match e.debugInfo with
      | none => some ⟨frames, ""⟩
      | some di => some ⟨frames, di.detail⟩)
  | .withLocalizedMessage loc m => e.setLocalizedMessage (some ⟨loc, m⟩)
  | .withRetryInfoDuration off => e.setRetryInfo (some ⟨some off, none⟩)
  | .withRetryTime t => e.setRetryInfo (some ⟨none, some t⟩)
  | .withCause cs => e.setCauses (e.causes ++ cs)
  | .withErrorMessage err => e.setMessage (GoError.errorString err)
  | .withWrap err => e.setWrappedErr (some err)

/-- The field an option writes. -/
def ErrorOption.footprint : ErrorOption → Field
  | .withCode _ => .code
  | .withMessage _ => .message
  | .withMetadata _ => .metadata
  | .withMetadataValue .. => .metadata
  | .withVisibility _ => .visibility
  | .withSubject _ => .subject
  | .withID _ => .id
  | .withTime _ => .time
  | .withSourceID _ => .sourceID
  | .withHelp _ => .help
  | .withHelpLink .. => .help
  | .withDebugInfo _ => .debugInfo
  | .withDebugDetail _ => .debugInfo
  | .withStackTraceDepth _ => .debugInfo
  | .withLocalizedMessage .. => .localizedMessage
  | .withRetryInfoDuration _ => .retryInfo
  | .withRetryTime _ => .retryInfo
  | .withCause _ => .causes
  | .withErrorMessage _ => .message
  | .withWrap _ => .wrappedErr

/-- `NewError`: defaults then the options in argument order. -/
def NewError (domain reason : String) (options : List ErrorOption) : TrogonError :=
  options.foldl (fun e o => applyOpt o e)
    (.mk 1 CodeUnknown "" domain reason [] [] VisibilityInternal "" "" none none none
      none none "" none)

/-- `Help.copy`: the links slice is cloned; value-wise the identity. -/
def Help.copy (h : Help) : Help :=
  if h.links.length = 0 then ⟨[]⟩ else ⟨h.links⟩

/-- `DebugInfo.copy`: the frames slice is cloned; value-wise the identity. -/
def DebugInfo.copy (d : DebugInfo) : DebugInfo :=
  if d.stackFrames.length = 0 then ⟨[], d.detail⟩ else ⟨d.stackFrames, d.detail⟩

/-- `TrogonError.copy`: the value the private `copy` method builds (the
nil-vs-allocated distinction of Go's empty map/slice is not observable
here, so the clone carries the same contents). -/
def TrogonError.copy (e : TrogonError) : TrogonError :=
  match e with
  | .mk sv c m d r md cs v s i t h dbg lm ri src w =>
    .mk sv c m d r
      (if md.length > 0 then md else [])
      (if cs.length > 0 then cs else [])
      v s i t
      (match h with | some hp => some hp.copy | none => none)
      (match dbg with | some di => some di.copy | none => none)
      lm ri src w

/-- The package's `ChangeOption` constructors (the `...f` printf variants
are the plain variants applied to the pre-formatted string). -/
inductive ChangeOption : Type where
  | withChangeMetadata (metadata : Metadata)
  | withChangeMetadataValue (visibility : Visibility) (key value : String)
  | withChangeID (id : String)
  | withChangeTime (timestamp : GoTime)
  | withChangeSourceID (sourceID : String)
  | withChangeHelpLink (description url : String)
  | withChangeRetryInfoDuration (retryOffset : Duration)
  | withChangeRetryTime (retryTime : GoTime)
  | withChangeLocalizedMessage (locale message : String)
deriving DecidableEq, Repr

/-- Application of one change option. -/
def applyChg (c : ChangeOption) (e : TrogonError) : TrogonError :=
  match c with
  | .withChangeMetadata md => e.setMetadata (mdCopy [] md)
  | .withChangeMetadataValue vis k v => e.setMetadata (addMetadataValue e.metadata vis k v)
  | .withChangeID i => e.setID i
  | .withChangeTime t => e.setTime (some t)
  | .withChangeSourceID src => e.setSourceID src
  | .withChangeHelpLink d u => e.setHelp (addHelpLink e.help d u)
  | .withChangeRetryInfoDuration off => e.setRetryInfo (some ⟨some off, none⟩)
  | .withChangeRetryTime t => e.setRetryInfo (some ⟨none, some t⟩)
  | .withChangeLocalizedMessage loc m => e.setLocalizedMessage (some ⟨loc, m⟩)

/-- `TrogonError.WithChanges`: one copy, then the changes in order. -/
def TrogonError.WithChanges (e : TrogonError) (changes : List ChangeOption) :
    TrogonError :=
  changes.foldl (fun a c => applyChg c a) e.copy

/-- `ErrorTemplate`. -/
structure ErrorTemplate where
  domain : String
  reason : String
  code : Code
  message : String
  visibility : Visibility
  help : Option Help
deriving DecidableEq, Repr

/-- The package's `TemplateOption` constructors. -/
inductive TemplateOption : Type where
  | templateWithCode (code : Code)
  | templateWithMessage (message : String)
  | templateWithVisibility (visibility : Visibility)
  | templateWithHelp (help : Help)
  | templateWithHelpLink (description url : String)
deriving DecidableEq, Repr

/-- Application of one template option. -/
def applyTmplOpt (o : TemplateOption) (t : ErrorTemplate) : ErrorTemplate :=
  match o with
  | .templateWithCode c => { t with code := c }
  | .templateWithMessage m => { t with message := m }
  | .templateWithVisibility v => { t with visibility := v }
  | .templateWithHelp h => { t with help := some h }
  | .templateWithHelpLink d u =>
    { t with help := some ⟨(match t.help with | some hp => hp.links | none => []) ++ [⟨d, u⟩]⟩ }

/-- `NewErrorTemplate`: defaults then the options in argument order. -/
def NewErrorTemplate (domain reason : String) (options : List TemplateOption) :
    ErrorTemplate :=
  options.foldl (fun t o => applyTmplOpt o t)
    ⟨domain, reason, CodeUnknown, "", VisibilityInternal, none⟩

/-- The baseline options `ErrorTemplate.NewError` composes before the
caller's instance options. -/
def ErrorTemplate.baseOptions (et : ErrorTemplate) : List ErrorOption :=
  [.withCode et.code, .withVisibility et.visibility]
    ++ (if et.message ≠ "" then [.withMessage et.message] else [])
    ++ (match et.help with | some h => [.withHelp h] | none => [])

/-- `ErrorTemplate.NewError`: template baseline options first, caller's
instance options after. -/
def ErrorTemplate.NewError (et : ErrorTemplate) (options : List ErrorOption) :
    TrogonError :=
  Trogon.NewError et.domain et.reason (et.baseOptions ++ options)

/-- `ErrorTemplate.Is`: identity comparison against an arbitrary error. -/
def ErrorTemplate.Is (et : ErrorTemplate) (target : GoError) : Bool :=
  match target with
  | .trogon t => et.domain == t.domain && et.reason == t.reason
  | .ext .. => false

/-- A target accepted by `As`: a template or an exemplar error, both of
which expose the internal `is` identity predicate the tests describe. -/
inductive AsTarget : Type where
  | tmpl (t : ErrorTemplate)
  | err (e : TrogonError)

/-- The target's identity predicate against a found `TrogonError` layer. -/
def AsTarget.matches (t : AsTarget) (e : TrogonError) : Bool :=
  match t with
  | .tmpl tp => tp.Is (.trogon e)
  | .err ex => ex.Is (.trogon e)

/-- Modelled from the spec: the chain-extraction helper `As` is declared
and tested in this repository but its definition is not among the given
source files.  Per the spec it "walks a possibly-wrapped external error
chain (following each layer's own unwrap link) looking for the first
layer that is of this system's type and whose identity matches a given
template or exemplar error; returns the found value and a success flag,
or a null/absent value and failure — never raises". -/
def As (err : GoError) (target : AsTarget) : Option TrogonError × Bool :=
  match err with
  | .trogon (.mk sv c m d r md cs v s i t h dbg lm ri src w) =>
    let layer : TrogonError := .mk sv c m d r md cs v s i t h dbg lm ri src w
    if target.matches layer then (some layer, true)
    else
      match w with
      | some next => As next target
      | none => (none, false)
  | .ext _ (some next) => As next target
  | .ext _ none => (none, false)

/-- The layers of a wrapped-error chain, outermost first. -/
def chainLayers (err : GoError) : List GoError :=
  match err with
  | .trogon (.mk sv c m d r md cs v s i t h dbg lm ri src w) =>
    GoError.trogon (.mk sv c m d r md cs v s i t h dbg lm ri src w)
      :: (match w with
          | some next => chainLayers next
          | none => [])
  | .ext m (some next) => GoError.ext m (some next) :: chainLayers next
  | .ext m none => [GoError.ext m none]

/-- The first matching `TrogonError` layer of a chain, if any. -/
def firstMatch (target : AsTarget) (err : GoError) : Option TrogonError :=
  (chainLayers err).findSome? fun l =>
    match l with
    | .trogon e => if target.matches e then some e else none
    | .ext .. => none

/-! ### Lemmas about the canonical map representation -/

theorem mdInsert_nil (k : String) (v : MetadataValue) :
    mdInsert [] k v = [(k, v)] := rfl

theorem mdInsert_cons_lt {k k0 : String} (u : MetadataValue) (rest : Metadata)
    (v : MetadataValue) (h : k < k0) :
    mdInsert ((k0, u) :: rest) k v = (k, v) :: (k0, u) :: rest := by
  simp [mdInsert, h]

theorem mdInsert_cons_eq {k k0 : String} (u : MetadataValue) (rest : Metadata)
    (v : MetadataValue) (h : k = k0) :
    mdInsert ((k0, u) :: rest) k v = (k, v) :: rest := by
  subst h
  simp [mdInsert, lt_irrefl]

theorem mdInsert_cons_gt {k k0 : String} (u : MetadataValue) (rest : Metadata)
    (v : MetadataValue) (h : k0 < k) :
    mdInsert ((k0, u) :: rest) k v = (k0, u) :: mdInsert rest k v := by
  simp [mdInsert, lt_asymm h, ne_of_gt h]

theorem mem_mdInsert {m : Metadata} {k v p} (h : p ∈ mdInsert m k v) :
    p = (k, v) ∨ p ∈ m := by
  induction m with
  | nil => simpa [mdInsert_nil] using h
  | cons q rest ih =>
    obtain ⟨k0, u⟩ := q
    rcases lt_trichotomy k k0 with hc | hc | hc
    · rw [mdInsert_cons_lt u rest v hc] at h
      simpa using h
    · rw [mdInsert_cons_eq u rest v hc] at h
      rcases List.mem_cons.mp h with h | h
      · exact Or.inl h
      · exact Or.inr (List.mem_cons_of_mem _ h)
    · rw [mdInsert_cons_gt u rest v hc] at h
      rcases List.mem_cons.mp h with h | h
      · exact Or.inr (h ▸ List.mem_cons_self _ _)
      · rcases ih h with h' | h'
        · exact Or.inl h'
        · exact Or.inr (List.mem_cons_of_mem _ h')

theorem mdInsert_wf {m : Metadata} {k : String} {v : MetadataValue}
    (h : MDWf m) : MDWf (mdInsert m k v) := by
  induction m with
  | nil => simp [mdInsert_nil, MDWf]
  | cons q rest ih =>
    obtain ⟨k0, u⟩ := q
    rcases List.pairwise_cons.mp h with ⟨hq, hrest⟩
    rcases lt_trichotomy k k0 with hc | hc | hc
    · rw [mdInsert_cons_lt u rest v hc]
      refine List.pairwise_cons.mpr ⟨?_, h⟩
      intro p hp
      rcases List.mem_cons.mp hp with hp' | hp'
      · exact hp' ▸ hc
      · exact lt_trans hc (hq p hp')
    · rw [mdInsert_cons_eq u rest v hc]
      refine List.pairwise_cons.mpr ⟨?_, hrest⟩
      intro p hp
      exact hc ▸ hq p hp
    · rw [mdInsert_cons_gt u rest v hc]
      refine List.pairwise_cons.mpr ⟨?_, ih hrest⟩
      intro p hp
      rcases mem_mdInsert hp with hp' | hp'
      · exact hp' ▸ hc
      · exact hq p hp'

theorem mdLookup_insert_self (m : Metadata) (k : String) (v : MetadataValue) :
    mdLookup (mdInsert m k v) k = some v := by
  induction m with
  | nil => simp [mdInsert_nil, mdLookup]
  | cons q rest ih =>
    obtain ⟨k0, u⟩ := q
    rcases lt_trichotomy k k0 with hc | hc | hc
    · rw [mdInsert_cons_lt u rest v hc]
      simp [mdLookup]
    · rw [mdInsert_cons_eq u rest v hc]
      simp [mdLookup]
    · rw [mdInsert_cons_gt u rest v hc]
      simp [mdLookup, ne_of_gt hc, ih]

theorem mdLookup_insert_ne {k k' : String} (m : Metadata) (v : MetadataValue)
    (h : k' ≠ k) : mdLookup (mdInsert m k v) k' = mdLookup m k' := by
  induction m with
  | nil => simp [mdInsert_nil, mdLookup, h]
  | cons q rest ih =>
    obtain ⟨k0, u⟩ := q
    rcases lt_trichotomy k k0 with hc | hc | hc
    · rw [mdInsert_cons_lt u rest v hc]
      simp [mdLookup, h]
    · rw [mdInsert_cons_eq u rest v hc]
      subst hc
      simp [mdLookup, h]
    · rw [mdInsert_cons_gt u rest v hc]
      by_cases hq : k' = k0 <;> simp [mdLookup, hq, ih]

theorem mdLookup_eq_none {m : Metadata} {k : String}
    (h : k ∉ m.map Prod.fst) : mdLookup m k = none := by
  induction m with
  | nil => rfl
  | cons q rest ih =>
    simp only [List.map_cons, List.mem_cons] at h
    push_neg at h
    obtain ⟨k0, u⟩ := q
    simp only [mdLookup]
    rw [if_neg h.1, ih h.2]

theorem mdCopy_cons (d : Metadata) (p : String × MetadataValue) (src : Metadata) :
    mdCopy d (p :: src) = mdCopy (mdInsert d p.1 p.2) src := rfl

theorem mdLookup_copy_not_mem {src : Metadata} {k : String} (d : Metadata)
    (h : k ∉ src.map Prod.fst) : mdLookup (mdCopy d src) k = mdLookup d k := by
  induction src generalizing d with
  | nil => rfl
  | cons q rest ih =>
    simp only [List.map_cons, List.mem_cons] at h
    push_neg at h
    rw [mdCopy_cons, ih _ h.2, mdLookup_insert_ne _ _ h.1]

theorem mdwf_cons {q : String × MetadataValue} {rest : Metadata}
    (h : MDWf (q :: rest)) : q.1 ∉ rest.map Prod.fst ∧ MDWf rest := by
  rcases List.pairwise_cons.mp h with ⟨hq, hrest⟩
  refine ⟨?_, hrest⟩
  intro hmem
  rcases List.mem_map.mp hmem with ⟨p, hp, hfst⟩
  exact absurd (hfst ▸ hq p hp) (lt_irrefl _)

theorem mdLookup_copy_mem {src : Metadata} {k : String} {v : MetadataValue}
    (d : Metadata) (hwf : MDWf src) (h : mdLookup src k = some v) :
    mdLookup (mdCopy d src) k = some v := by
  induction src generalizing d with
  | nil => simp [mdLookup] at h
  | cons q rest ih =>
    rcases mdwf_cons hwf with ⟨hq, hrest⟩
    obtain ⟨k0, u⟩ := q
    by_cases hk : k = k0
    · subst hk
      have h' : u = v := by simpa [mdLookup] using h
      subst h'
      rw [mdCopy_cons, mdLookup_copy_not_mem _ hq, mdLookup_insert_self]
    · simp only [mdLookup, if_neg hk] at h
      rw [mdCopy_cons]
      exact ih _ hrest h

theorem mdCopy_wf {d : Metadata} (src : Metadata) (hd : MDWf d) :
    MDWf (mdCopy d src) := by
  induction src generalizing d with
  | nil => exact hd
  | cons q rest ih => exact mdCopy_cons _ _ _ ▸ ih (mdInsert_wf hd)

theorem mdInsert_insert_same (m : Metadata) (k : String) (v1 v2 : MetadataValue) :
    mdInsert (mdInsert m k v1) k v2 = mdInsert m k v2 := by
  induction m with
  | nil =>
    rw [mdInsert_nil, mdInsert_nil, mdInsert_cons_eq _ _ _ rfl]
  | cons q rest ih =>
    obtain ⟨k0, u⟩ := q
    rcases lt_trichotomy k k0 with hc | hc | hc
    · rw [mdInsert_cons_lt u rest v1 hc, mdInsert_cons_eq _ _ _ rfl,
        mdInsert_cons_lt u rest v2 hc]
    · rw [mdInsert_cons_eq u rest v1 hc, mdInsert_cons_eq _ _ _ rfl,
        mdInsert_cons_eq u rest v2 hc]
    · rw [mdInsert_cons_gt u rest v1 hc, mdInsert_cons_gt u _ v2 hc,
        mdInsert_cons_gt u rest v2 hc, ih]

theorem mdInsert_comm {k1 k2 : String} (m : Metadata) (v1 v2 : MetadataValue)
    (h : k1 ≠ k2) :
    mdInsert (mdInsert m k1 v1) k2 v2 = mdInsert (mdInsert m k2 v2) k1 v1 := by
  induction m with
  | nil =>
    rcases h.lt_or_lt with hc | hc
    · rw [mdInsert_nil, mdInsert_nil, mdInsert_cons_gt _ _ _ hc,
        mdInsert_cons_lt _ _ _ hc, mdInsert_nil]
    · rw [mdInsert_nil, mdInsert_nil, mdInsert_cons_lt _ _ _ hc,
        mdInsert_cons_gt _ _ _ hc, mdInsert_nil]
  | cons q rest ih =>
    obtain ⟨k0, u⟩ := q
    rcases lt_trichotomy k1 k0 with ha | ha | ha <;>
      rcases lt_trichotomy k2 k0 with hb | hb | hb
    · rcases h.lt_or_lt with hc | hc
      · rw [mdInsert_cons_lt u rest v1 ha, mdInsert_cons_gt v1 _ v2 hc,
          mdInsert_cons_lt u rest v2 hb, mdInsert_cons_lt v2 _ v1 hc]
      · rw [mdInsert_cons_lt u rest v1 ha, mdInsert_cons_lt v1 _ v2 hc,
          mdInsert_cons_lt u rest v2 hb, mdInsert_cons_gt v2 _ v1 hc,
          mdInsert_cons_lt u rest v1 ha]
    · subst hb
      have hc : k1 < k2 := ha
      rw [mdInsert_cons_lt u rest v1 hc, mdInsert_cons_gt v1 _ v2 hc,
        mdInsert_cons_eq u rest v2 rfl, mdInsert_cons_lt v2 rest v1 hc]
    · have hc : k1 < k2 := lt_trans ha hb
      rw [mdInsert_cons_lt u rest v1 ha, mdInsert_cons_gt v1 _ v2 hc,
        mdInsert_cons_gt u rest v2 hb, mdInsert_cons_lt u _ v1 ha]
    · subst ha
      have hc : k2 < k1 := hb
      rw [mdInsert_cons_eq u rest v1 rfl, mdInsert_cons_lt v1 rest v2 hc,
        mdInsert_cons_lt u rest v2 hc, mdInsert_cons_gt v2 _ v1 hc,
        mdInsert_cons_eq u rest v1 rfl]
    · subst ha
      subst hb
      exact absurd rfl h
    · subst ha
      have hc : k1 < k2 := hb
      rw [mdInsert_cons_eq u rest v1 rfl, mdInsert_cons_gt v1 rest v2 hc,
        mdInsert_cons_gt u rest v2 hc, mdInsert_cons_eq u _ v1 rfl]
    · have hc : k2 < k1 := lt_trans hb ha
      rw [mdInsert_cons_gt u rest v1 ha, mdInsert_cons_lt u _ v2 hb,
        mdInsert_cons_lt u rest v2 hb, mdInsert_cons_gt v2 _ v1 hc,
        mdInsert_cons_gt u rest v1 ha]
    · subst hb
      have hc : k2 < k1 := ha
      rw [mdInsert_cons_gt u rest v1 hc, mdInsert_cons_eq u _ v2 rfl,
        mdInsert_cons_eq u rest v2 rfl, mdInsert_cons_gt v2 rest v1 hc]
    · rw [mdInsert_cons_gt u rest v1 ha, mdInsert_cons_gt u _ v2 hb,
        mdInsert_cons_gt u rest v2 hb, mdInsert_cons_gt u _ v1 ha, ih]

/-! ### Helper lemmas about options, copies back changes -/

theorem helpCopy_eq (h : Help) : h.copy = h := by
  cases h with
  | mk links =>
    simp only [Help.copy]
    split_ifs with hl
    · rw [List.length_eq_zero.mp hl]
    · rfl

theorem debugInfoCopy_eq (d : DebugInfo) : d.copy = d := by
  cases d with
  | mk frames detail =>
    simp only [DebugInfo.copy]
    split_ifs with hl
    · rw [List.length_eq_zero.mp hl]
    · rfl

theorem trogonErrorCopy_eq (e : TrogonError) : e.copy = e := by
  cases e with
  | mk sv c m d r md cs v s i t h dbg lm ri src w =>
    simp only [TrogonError.copy]
    have hmd : (if md.length > 0 then md else []) = md := by
      split_ifs with h1
      · rfl
      · exact (List.length_eq_zero.mp (Nat.eq_zero_of_not_pos h1)).symm
    have hcs : (if cs.length > 0 then cs else []) = cs := by
      split_ifs with h1
      · rfl
      · exact (List.length_eq_zero.mp (Nat.eq_zero_of_not_pos h1)).symm
    have hh : (match h with
        | some hp => some hp.copy
        | none => none) = h := by
      cases h <;> simp [helpCopy_eq]
    have hdbg : (match dbg with
        | some di => some di.copy
        | none => none) = dbg := by
      cases dbg <;> simp [debugInfoCopy_eq]
    rw [hmd, hcs, hh, hdbg]

/-- Application of a list of construction options in order. -/
def applyOpts (opts : List ErrorOption) (e : TrogonError) : TrogonError :=
  opts.foldl (fun a o => applyOpt o a) e

/-- Application of a list of change options in order. -/
def applyChgs (chgs : List ChangeOption) (e : TrogonError) : TrogonError :=
  chgs.foldl (fun a c => applyChg c a) e

theorem NewError_eq_applyOpts (d r : String) (opts : List ErrorOption) :
    NewError d r opts = applyOpts opts
      (.mk 1 CodeUnknown "" d r [] [] VisibilityInternal "" "" none none none
        none none "" none) := rfl

theorem WithChanges_eq_applyChgs (e : TrogonError) (cs : List ChangeOption) :
    e.WithChanges cs = applyChgs cs e := by
  unfold TrogonError.WithChanges applyChgs
  rw [trogonErrorCopy_eq]

theorem applyOpts_append (l1 l2 : List ErrorOption) (e : TrogonError) :
    applyOpts (l1 ++ l2) e = applyOpts l2 (applyOpts l1 e) :=
  List.foldl_append ..

theorem applyOpt_domain (o : ErrorOption) (e : TrogonError) :
    (applyOpt o e).domain = e.domain := by
  cases e
  cases o <;> rfl

theorem applyOpt_reason (o : ErrorOption) (e : TrogonError) :
    (applyOpt o e).reason = e.reason := by
  cases e
  cases o <;> rfl

theorem applyOpts_domain (opts : List ErrorOption) (e : TrogonError) :
    (applyOpts opts e).domain = e.domain := by
  induction opts generalizing e with
  | nil => rfl
  | cons o rest ih => rw [applyOpts, List.foldl_cons, ← applyOpts, ih, applyOpt_domain]

theorem applyOpts_reason (opts : List ErrorOption) (e : TrogonError) :
    (applyOpts opts e).reason = e.reason := by
  induction opts generalizing e with
  | nil => rfl
  | cons o rest ih => rw [applyOpts, List.foldl_cons, ← applyOpts, ih, applyOpt_reason]

/-- The RetryInfo invariant: absent, or exactly one of the two variants. -/
def retryOk : Option RetryInfo → Prop
  | none => True
  | some ri => (ri.retryOffset ≠ none ∧ ri.retryTime = none)
      ∨ (ri.retryOffset = none ∧ ri.retryTime ≠ none)

theorem retryOk_applyOpt (o : ErrorOption) (e : TrogonError)
    (h : retryOk e.retryInfo) : retryOk (applyOpt o e).retryInfo := by
  cases e
  cases o <;>
    first
    | exact h
    | exact Or.inl ⟨Option.some_ne_none _, rfl⟩
    | exact Or.inr ⟨rfl, Option.some_ne_none _⟩

theorem retryOk_applyOpts (opts : List ErrorOption) (e : TrogonError)
    (h : retryOk e.retryInfo) : retryOk (applyOpts opts e).retryInfo := by
  induction opts generalizing e with
  | nil => exact h
  | cons o rest ih =>
    rw [applyOpts, List.foldl_cons, ← applyOpts]
    exact ih _ (retryOk_applyOpt o e h)

theorem retryOk_applyChg (c : ChangeOption) (e : TrogonError)
    (h : retryOk e.retryInfo) : retryOk (applyChg c e).retryInfo := by
  cases e
  cases c <;>
    first
    | exact h
    | exact Or.inl ⟨Option.some_ne_none _, rfl⟩
    | exact Or.inr ⟨rfl, Option.some_ne_none _⟩

theorem retryOk_applyChgs (cs : List ChangeOption) (e : TrogonError)
    (h : retryOk e.retryInfo) : retryOk (applyChgs cs e).retryInfo := by
  induction cs generalizing e with
  | nil => exact h
  | cons c rest ih =>
    rw [applyChgs, List.foldl_cons, ← applyChgs]
    exact ih _ (retryOk_applyChg c e h)

theorem mdwf_applyOpt (o : ErrorOption) (e : TrogonError)
    (h : MDWf e.metadata) : MDWf (applyOpt o e).metadata := by
  cases e
  cases o <;>
    first
    | exact h
    | exact mdInsert_wf h
    | exact mdCopy_wf _ h

theorem mdwf_applyOpts (opts : List ErrorOption) (e : TrogonError)
    (h : MDWf e.metadata) : MDWf (applyOpts opts e).metadata := by
  induction opts generalizing e with
  | nil => exact h
  | cons o rest ih =>
    rw [applyOpts, List.foldl_cons, ← applyOpts]
    exact ih _ (mdwf_applyOpt o e h)

theorem mdwf_applyChg (c : ChangeOption) (e : TrogonError)
    (h : MDWf e.metadata) : MDWf (applyChg c e).metadata := by
  cases e
  cases c <;>
    first
    | exact h
    | exact mdInsert_wf h
    | exact mdCopy_wf _ List.Pairwise.nil

theorem mdwf_applyChgs (cs : List ChangeOption) (e : TrogonError)
    (h : MDWf e.metadata) : MDWf (applyChgs cs e).metadata := by
  induction cs generalizing e with
  | nil => exact h
  | cons c rest ih =>
    rw [applyChgs, List.foldl_cons, ← applyChgs]
    exact ih _ (mdwf_applyChg c e h)

theorem mdwf_NewError (d r : String) (opts : List ErrorOption) :
    MDWf (NewError d r opts).metadata := by
  rw [NewError_eq_applyOpts]
  exact mdwf_applyOpts _ _ List.Pairwise.nil

/-! ### Formatter lemmas -/

/-- Number of rendered lines of a string: newline count plus one. -/
def numLines (s : String) : Nat := s.data.count '\n' + 1

theorem map_mdLine {m : Metadata} (hwf : MDWf m) :
    (m.map Prod.fst).map (mdLine m) = m.map (fun p =>
      "\n    - " ++ p.1 ++ ": " ++ p.2.value ++ " visibility="
        ++ Visibility.string p.2.visibility) := by
  induction m with
  | nil => rfl
  | cons q rest ih =>
    rcases mdwf_cons hwf with ⟨hq, hrest⟩
    obtain ⟨k0, u⟩ := q
    simp only [List.map_cons]
    congr 1
    · simp [mdLine, mdLookup]
    · rw [← ih hrest]
      apply List.map_congr_left
      intro k hk
      have hne : k ≠ k0 := by
        intro hkk
        exact hq (hkk ▸ hk)
      simp [mdLine, mdLookup, hne]

theorem metaSection_eq_of_wf {m : Metadata} (hwf : MDWf m) (hne : m ≠ []) :
    metaSection m = "\n  metadata:" ++ String.join (m.map (fun p =>
      "\n    - " ++ p.1 ++ ": " ++ p.2.value ++ " visibility="
        ++ Visibility.string p.2.visibility)) := by
  unfold metaSection
  rw [if_pos (List.length_pos.mpr hne)]
  have hsorted : List.Sorted (· ≤ ·) (m.map Prod.fst) := by
    have h1 : List.Pairwise (· < ·) (m.map Prod.fst) :=
      List.pairwise_map.mpr hwf
    exact h1.imp le_of_lt
  rw [hsorted.insertionSort_eq, map_mdLine hwf]

theorem metaSection_nil : metaSection [] = "" := rfl

theorem optFieldsSection_empty (e : TrogonError) (hid : e.id = "")
    (ht : e.time = none) (hs : e.subject = "") (hsrc : e.sourceID = "")
    (hri : e.retryInfo = none) : optFieldsSection e = "" := by
  simp [optFieldsSection, hid, ht, hs, hsrc, hri]

theorem codeString_no_newline (c : Code) : (Code.string c).data.count '\n' = 0 := by
  unfold Code.string
  split <;> decide

theorem visibilityString_no_newline (v : Visibility) :
    (Visibility.string v).data.count '\n' = 0 := by
  unfold Visibility.string
  split <;> decide

theorem codeMessage_no_newline (c : Code) :
    (Code.message c).data.count '\n' = 0 := by
  unfold Code.message
  split <;> decide

/-! ### Claims -/

/-- C1: for every two `TrogonError` values `a` and `b`, `a.Is(b)` returns
true iff `a`'s domain equals `b`'s domain and `a`'s reason equals `b`'s
reason, regardless of every other field. -/
theorem C1_Is_identity (a b : TrogonError) :
    a.Is (.trogon b) = true ↔ a.domain = b.domain ∧ a.reason = b.reason := by
  simp [TrogonError.Is]

/-- C5: every error reachable via `NewError`, `Template.NewError` or
`WithChanges` has `retryInfo` absent or with exactly one variant set, and
a retry option always leaves exactly the last-set variant present,
clearing the other. -/
theorem C5_retryInfo_exclusive :
    (∀ d r opts, retryOk (NewError d r opts).retryInfo)
  ∧ (∀ (et : ErrorTemplate) opts, retryOk (et.NewError opts).retryInfo)
  ∧ (∀ (e : TrogonError) cs, retryOk e.retryInfo →
      retryOk (e.WithChanges cs).retryInfo)
  ∧ (∀ (e : TrogonError) off,
      (applyOpt (.withRetryInfoDuration off) e).retryInfo = some ⟨some off, none⟩)
  ∧ (∀ (e : TrogonError) t,
      (applyOpt (.withRetryTime t) e).retryInfo = some ⟨none, some t⟩)
  ∧ (∀ (e : TrogonError) off,
      (applyChg (.withChangeRetryInfoDuration off) e).retryInfo = some ⟨some off, none⟩)
  ∧ (∀ (e : TrogonError) t,
      (applyChg (.withChangeRetryTime t) e).retryInfo = some ⟨none, some t⟩) := by
  refine ⟨?_, ?_, ?_, ?_, ?_, ?_, ?_⟩
  · intro d r opts
    rw [NewError_eq_applyOpts]
    exact retryOk_applyOpts _ _ trivial
  · intro et opts
    unfold ErrorTemplate.NewError
    rw [NewError_eq_applyOpts]
    exact retryOk_applyOpts _ _ trivial
  · intro e cs h
    rw [WithChanges_eq_applyChgs]
    exact retryOk_applyChgs _ _ h
  · intro e off
    cases e
    rfl
  · intro e t
    cases e
    rfl
  · intro e off
    cases e
    rfl
  · intro e t
    cases e
    rfl

/-- C5 witness: the theorem applied at a concrete error and change list. -/
theorem C5_witness :
    retryOk ((NewError "d" "r" []).WithChanges
      [.withChangeRetryTime ⟨"2025-01-01T00:00:00Z"⟩]).retryInfo :=
  C5_retryInfo_exclusive.2.2.1 (NewError "d" "r" []) _ trivial

/-- C6: `Code.HttpStatusCode` implements the fixed 16-entry table
(NOT_FOUND at 404, RESOURCE_EXHAUSTED at 429, UNAUTHENTICATED at 401),
falling back to 500 on every out-of-range value. -/
theorem C6_httpStatusCode_table :
    Code.httpStatusCode CodeCancelled = 499
  ∧ Code.httpStatusCode CodeUnknown = 500
  ∧ Code.httpStatusCode CodeInvalidArgument = 400
  ∧ Code.httpStatusCode CodeDeadlineExceeded = 504
  ∧ Code.httpStatusCode CodeNotFound = 404
  ∧ Code.httpStatusCode CodeAlreadyExists = 409
  ∧ Code.httpStatusCode CodePermissionDenied = 403
  ∧ Code.httpStatusCode CodeResourceExhausted = 429
  ∧ Code.httpStatusCode CodeFailedPrecondition = 400
  ∧ Code.httpStatusCode CodeAborted = 409
  ∧ Code.httpStatusCode CodeOutOfRange = 400
  ∧ Code.httpStatusCode CodeUnimplemented = 501
  ∧ Code.httpStatusCode CodeInternal = 500
  ∧ Code.httpStatusCode CodeUnavailable = 503
  ∧ Code.httpStatusCode CodeDataLoss = 500
  ∧ Code.httpStatusCode CodeUnauthenticated = 401
  ∧ (∀ c : Code, c < 1 ∨ 16 < c → Code.httpStatusCode c = 500) := by
  refine ⟨rfl, rfl, rfl, rfl, rfl, rfl, rfl, rfl, rfl, rfl, rfl, rfl, rfl, rfl,
    rfl, rfl, ?_⟩
  intro c hc
  rcases hc with hc | hc <;>
    · unfold Code.httpStatusCode
      split <;> first | rfl | exact absurd hc (by decide)

/-- C6 witness: the fallback applied at the out-of-range code 99. -/
theorem C6_witness : Code.httpStatusCode 99 = 500 :=
  C6_httpStatusCode_table.2.2.2.2.2.2.2.2.2.2.2.2.2.2.2.2 99 (Or.inr (by decide))

/-- The links of an error's help, nil-tolerant. -/
def helpLinks (e : TrogonError) : List HelpLink :=
  match e.help with
  | some h => h.links
  | none => []

/-- The links of a template's help, nil-tolerant. -/
def templateLinks (et : ErrorTemplate) : List HelpLink :=
  match et.help with
  | some h => h.links
  | none => []

theorem applyOpts_singleton (o : ErrorOption) (e : TrogonError) :
    applyOpts [o] e = applyOpt o e := rfl

theorem code_applyOpt_withCode (c : Code) (e : TrogonError) :
    (applyOpt (.withCode c) e).code = c := by
  cases e
  rfl

theorem message_applyOpt_withMessage (m : String) (e : TrogonError) :
    (applyOpt (.withMessage m) e).message = m := by
  cases e
  rfl

theorem visibility_applyOpt_withVisibility (v : Visibility) (e : TrogonError) :
    (applyOpt (.withVisibility v) e).visibility = v := by
  cases e
  rfl

theorem helpLinks_applyOpt_withHelpLink (d u : String) (e : TrogonError) :
    helpLinks (applyOpt (.withHelpLink d u) e) = helpLinks e ++ [⟨d, u⟩] := by
  cases e with
  | mk sv c m dm r md cs v s i t h dbg lm ri src w =>
    cases h <;> rfl

/-- C7: `Template.NewError` stamps the template's domain and reason,
applies the template's baseline options first and the caller's instance
options afterwards, so instance options override template defaults on
scalar fields and instance help links accumulate after template-provided
ones. -/
theorem C7_template_composition :
    (∀ (et : ErrorTemplate) opts,
        (et.NewError opts).domain = et.domain ∧ (et.NewError opts).reason = et.reason)
  ∧ (∀ (et : ErrorTemplate) opts,
        et.NewError opts = applyOpts opts (NewError et.domain et.reason et.baseOptions))
  ∧ (∀ (et : ErrorTemplate) opts c,
        (et.NewError (opts ++ [.withCode c])).code = c)
  ∧ (∀ (et : ErrorTemplate) opts m,
        (et.NewError (opts ++ [.withMessage m])).message = m)
  ∧ (∀ (et : ErrorTemplate) opts v,
        (et.NewError (opts ++ [.withVisibility v])).visibility = v)
  ∧ (∀ (et : ErrorTemplate) d u,
        helpLinks (et.NewError [.withHelpLink d u]) = templateLinks et ++ [⟨d, u⟩]) := by
  have hbase : ∀ (et : ErrorTemplate) opts,
      et.NewError opts = applyOpts opts (NewError et.domain et.reason et.baseOptions) := by
    intro et opts
    unfold ErrorTemplate.NewError
    rw [NewError_eq_applyOpts, NewError_eq_applyOpts, applyOpts_append]
  have hlinks_base : ∀ et : ErrorTemplate,
      helpLinks (NewError et.domain et.reason et.baseOptions) = templateLinks et := by
    intro et
    obtain ⟨d0, r0, c0, m0, v0, h0⟩ := et
    by_cases hm : m0 ≠ "" <;> cases h0 <;>
      simp [ErrorTemplate.baseOptions, hm, NewError, applyOpt, helpLinks,
        templateLinks, TrogonError.setCode, TrogonError.setVisibility,
        TrogonError.setMessage, TrogonError.setHelp, TrogonError.help]
  refine ⟨?_, hbase, ?_, ?_, ?_, ?_⟩
  · intro et opts
    rw [hbase]
    constructor
    · rw [applyOpts_domain, NewError_eq_applyOpts, applyOpts_domain]
      rfl
    · rw [applyOpts_reason, NewError_eq_applyOpts, applyOpts_reason]
      rfl
  · intro et opts c
    rw [hbase, applyOpts_append, applyOpts_singleton, code_applyOpt_withCode]
  · intro et opts m
    rw [hbase, applyOpts_append, applyOpts_singleton, message_applyOpt_withMessage]
  · intro et opts v
    rw [hbase, applyOpts_append, applyOpts_singleton, visibility_applyOpt_withVisibility]
  · intro et d u
    rw [hbase, applyOpts_singleton, helpLinks_applyOpt_withHelpLink, hlinks_base]

/-- C10: `WithChangeMetadata` replaces the metadata wholesale (keys of
the receiver absent from the supplied map are absent from the result),
while the constructor option `WithMetadata` accumulates, preserving keys
not mentioned and adopting every supplied entry. -/
theorem C10_changeMetadata_replaces :
    (∀ (e : TrogonError) (m : Metadata) (k : String),
        k ∈ e.metadata.map Prod.fst → k ∉ m.map Prod.fst →
        mdLookup ((e.WithChanges [.withChangeMetadata m]).metadata) k = none)
  ∧ (∀ (e : TrogonError) (m : Metadata) (k : String), k ∉ m.map Prod.fst →
        mdLookup ((applyOpt (.withMetadata m) e).metadata) k = mdLookup e.metadata k)
  ∧ (∀ (e : TrogonError) (m : Metadata) (k : String) (v : MetadataValue),
        MDWf m → mdLookup m k = some v →
        mdLookup ((applyOpt (.withMetadata m) e).metadata) k = some v) := by
  have hchg : ∀ (e : TrogonError) (m : Metadata),
      (e.WithChanges [.withChangeMetadata m]).metadata = mdCopy [] m := by
    intro e m
    rw [WithChanges_eq_applyChgs]
    cases e
    rfl
  have hopt : ∀ (e : TrogonError) (m : Metadata),
      (applyOpt (.withMetadata m) e).metadata = mdCopy e.metadata m := by
    intro e m
    cases e
    rfl
  refine ⟨?_, ?_, ?_⟩
  · intro e m k _ hnm
    rw [hchg, mdLookup_copy_not_mem _ hnm]
    rfl
  · intro e m k hnm
    rw [hopt, mdLookup_copy_not_mem _ hnm]
  · intro e m k v hwf hv
    rw [hopt]
    exact mdLookup_copy_mem _ hwf hv

/-- C10 witness: the theorem applied at a concrete error and map. -/
theorem C10_witness :
    mdLookup (((NewError "d" "r" [.withMetadataValue 0 "a" "x"]).WithChanges
      [.withChangeMetadata [("b", ⟨"y", 0⟩)]]).metadata) "a" = none :=
  C10_changeMetadata_replaces.1 (NewError "d" "r" [.withMetadataValue 0 "a" "x"])
    [("b", ⟨"y", 0⟩)] "a" (by decide) (by decide)

/-- C4: for every error with non-empty metadata, `Error()` renders the
`  metadata:` header followed by one `    - <key>: <value>
visibility=<VISIBILITY_NAME>` line per entry, keys ascending, and the
map's contents do not depend on the order metadata keys were inserted
(distinct-key writes commute); every API-built error's metadata is in
this canonical sorted form. -/
theorem C4_metadata_sorted (e : TrogonError) (hwf : MDWf e.metadata)
    (hne : e.metadata ≠ []) :
    e.Error = firstFiveSection e ++ optFieldsSection e
      ++ ("\n  metadata:" ++ String.join (e.metadata.map (fun p =>
            "\n    - " ++ p.1 ++ ": " ++ p.2.value ++ " visibility="
              ++ Visibility.string p.2.visibility)))
      ++ helpSection e.help ++ wrapSection e.wrappedErr ++ debugSection e.debugInfo
    ∧ List.Sorted (· < ·) (e.metadata.map Prod.fst)
    ∧ (∀ (m : Metadata) (k1 k2 : String) (v1 v2 : MetadataValue), k1 ≠ k2 →
        mdInsert (mdInsert m k1 v1) k2 v2 = mdInsert (mdInsert m k2 v2) k1 v1)
    ∧ (∀ d r opts, MDWf (NewError d r opts).metadata) := by
  refine ⟨?_, List.pairwise_map.mpr hwf,
    fun m k1 k2 v1 v2 h => mdInsert_comm m v1 v2 h, mdwf_NewError⟩
  rw [Error_eq, metaSection_eq_of_wf hwf hne]

/-- C3 counterexample: an error whose optional fields are all empty but
whose message contains a newline renders 6 lines, not 5, so the claim as
stated fails. -/
theorem C3_counterexample :
    numLines (TrogonError.Error (NewError "shopify.core" "SYSTEM_ERROR"
      [.withMessage "line one\nline two"])) = 6
  ∧ numLines (TrogonError.Error (NewError "shopify.core" "SYSTEM_ERROR"
      [.withMessage "line one\nline two"])) ≠ 5 := by
  exact ⟨by decide, by decide⟩

/-- C3 (amended): for every error whose optional fields are all empty or
nil and whose trimmed message, domain and reason contain no newline,
`Error()` renders exactly 5 lines — the trimmed message (falling back to
the code's default message when the message is empty), then the
visibility, domain, reason and code lines in that fixed order. -/
theorem C3_five_lines (e : TrogonError)
    (hid : e.id = "") (ht : e.time = none) (hs : e.subject = "")
    (hsrc : e.sourceID = "") (hri : e.retryInfo = none) (hmd : e.metadata = [])
    (hh : e.help = none) (hdbg : e.debugInfo = none) (hw : e.wrappedErr = none)
    (hm : (trimSpace (TrogonError.Message e)).data.count '\n' = 0)
    (hd : e.domain.data.count '\n' = 0) (hr : e.reason.data.count '\n' = 0) :
    e.Error = trimSpace (TrogonError.Message e)
        ++ "\n  visibility: " ++ Visibility.string e.visibility
        ++ "\n  domain: " ++ e.domain
        ++ "\n  reason: " ++ e.reason
        ++ "\n  code: " ++ Code.string e.code
    ∧ numLines e.Error = 5
    ∧ (e.message = "" → TrogonError.Message e = Code.message e.code) := by
  have h2 : e.Error = trimSpace (TrogonError.Message e)
      ++ "\n  visibility: " ++ Visibility.string e.visibility
      ++ "\n  domain: " ++ e.domain
      ++ "\n  reason: " ++ e.reason
      ++ "\n  code: " ++ Code.string e.code := by
    rw [Error_eq, optFieldsSection_empty e hid ht hs hsrc hri, hmd, hh, hdbg, hw]
    simp only [metaSection_nil, helpSection, wrapSection, debugSection,
      String.append_empty]
    rfl
  refine ⟨h2, ?_, ?_⟩
  · rw [numLines, h2]
    simp only [String.data_append, List.count_append, hm, hd, hr,
      visibilityString_no_newline, codeString_no_newline]
    decide
  · intro hmsg
    simp [TrogonError.Message, hmsg]

/-- C3 witness: the amended theorem applied at a concrete maximally empty
error. -/
theorem C3_witness :
    numLines (TrogonError.Error (NewError "shopify.core" "SYSTEM_ERROR" [])) = 5 :=
  (C3_five_lines (NewError "shopify.core" "SYSTEM_ERROR" []) rfl rfl rfl rfl rfl
    rfl rfl rfl rfl (by decide) (by decide) (by decide)).2.1

/-! ### Reference-instrumented model for the copy-on-write claim

The Go `copy`/`WithChanges` pair clones the mutable substructures
(metadata map, `Help` cell, `DebugInfo` cell) so that mutating the result
never affects the receiver.  To state that aliasing property, the same
source functions are re-embedded with each mutable cell carrying an
explicit allocation identity (`ref`); `n` threads the next free
reference, and an allocation hands out the current `n`. -/

/-- A Go metadata map with its allocation identity. -/
structure RMeta where
  ref : Nat
  entries : Metadata
deriving DecidableEq

/-- A Go `*Help` cell with its allocation identity. -/
structure RHelp where
  ref : Nat
  links : List HelpLink
deriving DecidableEq

/-- A Go `*DebugInfo` cell with its allocation identity. -/
structure RDebug where
  ref : Nat
  stackFrames : List Frame
  detail : String
deriving DecidableEq

/-- `TrogonError` with instrumented mutable cells (`none` metadata is
Go's nil map). -/
structure RTrogonError where
  specVersion : Int
  code : Code
  message : String
  domain : String
  reason : String
  metadata : Option RMeta
  causes : List TrogonError
  visibility : Visibility
  subject : String
  id : String
  time : Option GoTime
  help : Option RHelp
  debugInfo : Option RDebug
  localizedMessage : Option LocalizedMessage
  retryInfo : Option RetryInfo
  sourceID : String
  wrappedErr : Option GoError

/-- The contents of a possibly-nil Go map. -/
def mdEntriesR : Option RMeta → Metadata
  | none => []
  | some m => m.entries

/-- `TrogonError.copy`, instrumented: clones the metadata entries into a
fresh map when non-empty (else leaves the clone's map nil), and
deep-copies `help` and `debugInfo` into fresh cells. -/
def rcopy (e : RTrogonError) (n : Nat) : RTrogonError × Nat :=
  let p1 : Option RMeta × Nat :=
    if (mdEntriesR e.metadata).length > 0 then
      (some ⟨n, mdEntriesR e.metadata⟩, n + 1)
    else (none, n)
  let p2 : Option RHelp × Nat :=
    match e.help with
    | some h => (some ⟨p1.2, h.links⟩, p1.2 + 1)
    | none => (none, p1.2)
  let p3 : Option RDebug × Nat :=
    match e.debugInfo with
    | some d => (some ⟨p2.2, d.stackFrames, d.detail⟩, p2.2 + 1)
    | none => (none, p2.2)
  ({ e with metadata := p1.1, help := p2.1, debugInfo := p3.1 }, p3.2)

/-- `addMetadataValue`, instrumented: allocates a fresh map when the
current one is nil or empty, else writes through the existing cell. -/
def raddMetadataValue (e : RTrogonError) (n : Nat) (visibility : Visibility)
    (key value : String) : RTrogonError × Nat :=
  if (mdEntriesR e.metadata).length = 0 then
    ({ e with metadata := some ⟨n, mdInsert [] key ⟨value, visibility⟩⟩ }, n + 1)
  else
    match e.metadata with
    | some m =>
      ({ e with metadata := some ⟨m.ref, mdInsert m.entries key ⟨value, visibility⟩⟩ }, n)
    | none => ({ e with metadata := some ⟨n, mdInsert [] key ⟨value, visibility⟩⟩ }, n + 1)

/-- `addHelpLink`, instrumented: allocates a fresh `Help` cell when nil,
else appends through the existing cell. -/
def raddHelpLink (e : RTrogonError) (n : Nat) (description url : String) :
    RTrogonError × Nat :=
  match e.help with
  | none => ({ e with help := some ⟨n, [⟨description, url⟩]⟩ }, n + 1)
  | some h => ({ e with help := some ⟨h.ref, h.links ++ [⟨description, url⟩]⟩ }, n)

/-- One change option, instrumented. -/
def rapplyChg (c : ChangeOption) (p : RTrogonError × Nat) : RTrogonError × Nat :=
  match c with
  | .withChangeMetadata m => ({ p.1 with metadata := some ⟨p.2, mdCopy [] m⟩ }, p.2 + 1)
  | .withChangeMetadataValue vis k v => raddMetadataValue p.1 p.2 vis k v
  | .withChangeID i => ({ p.1 with id := i }, p.2)
  | .withChangeTime t => ({ p.1 with time := some t }, p.2)
  | .withChangeSourceID src => ({ p.1 with sourceID := src }, p.2)
  | .withChangeHelpLink d u => raddHelpLink p.1 p.2 d u
  | .withChangeRetryInfoDuration off =>
    ({ p.1 with retryInfo := some ⟨some off, none⟩ }, p.2)
  | .withChangeRetryTime t => ({ p.1 with retryInfo := some ⟨none, some t⟩ }, p.2)
  | .withChangeLocalizedMessage loc m =>
    ({ p.1 with localizedMessage := some ⟨loc, m⟩ }, p.2)

/-- `WithChanges`, instrumented: one copy, then the changes in order. -/
def RWithChanges (e : RTrogonError) (cs : List ChangeOption) (n : Nat) :
    RTrogonError × Nat :=
  cs.foldl (fun p c => rapplyChg c p) (rcopy e n)

/-- The references of an error's mutable cells. -/
def mrefs (e : RTrogonError) : List Nat :=
  (match e.metadata with | some m => [m.ref] | none => [])
    ++ (match e.help with | some h => [h.ref] | none => [])
    ++ (match e.debugInfo with | some d => [d.ref] | none => [])

/-- The observable contents of an instrumented error: every field, with
cell identities erased (a nil and an empty map read the same). -/
def robs (e : RTrogonError) :
    Int × Code × String × String × String × Metadata × List TrogonError
      × Visibility × String × String × Option GoTime × Option (List HelpLink)
      × Option (List Frame × String) × Option LocalizedMessage
      × Option RetryInfo × String × Option GoError :=
  (e.specVersion, e.code, e.message, e.domain, e.reason, mdEntriesR e.metadata,
   e.causes, e.visibility, e.subject, e.id, e.time,
   (match e.help with | some h => some h.links | none => none),
   (match e.debugInfo with | some d => some (d.stackFrames, d.detail) | none => none),
   e.localizedMessage, e.retryInfo, e.sourceID, e.wrappedErr)

/-- Every mutable reference of `p.1` was allocated at or after `n` and
below the running counter `p.2`. -/
def RInv (n : Nat) (p : RTrogonError × Nat) : Prop :=
  (∀ r ∈ mrefs p.1, n ≤ r ∧ r < p.2) ∧ n ≤ p.2

theorem rinv_rcopy (e : RTrogonError) (n : Nat) : RInv n (rcopy e n) := by
  obtain ⟨sv, c, m, d, r, md, cs, v, s, i, t, hp, dbg, lm, ri, src, w⟩ := e
  cases hp <;> cases dbg <;>
    · simp only [rcopy, RInv, mrefs]
      (try split_ifs) <;> simp_all <;> omega

theorem rinv_rapplyChg (c : ChangeOption) (n : Nat) (p : RTrogonError × Nat)
    (h : RInv n p) : RInv n (rapplyChg c p) := by
  obtain ⟨e, n1⟩ := p
  obtain ⟨sv, cd, m, d, r, md, cs, v, s, i, t, hp, dbg, lm, ri, src, w⟩ := e
  cases c <;>
    first
    | exact h
    | · cases md <;> cases hp <;> cases dbg <;>
        · simp only [rapplyChg, raddMetadataValue, raddHelpLink, RInv, mrefs,
            mdEntriesR] at h ⊢
          (try split_ifs) <;> simp_all <;> omega

theorem rinv_fold (cs : List ChangeOption) (n : Nat) (p : RTrogonError × Nat)
    (h : RInv n p) : RInv n (cs.foldl (fun p c => rapplyChg c p) p) := by
  induction cs generalizing p with
  | nil => exact h
  | cons c rest ih => exact ih _ (rinv_rapplyChg c n p h)

/-- C2: `WithChanges` never mutates the receiver: the copy it starts from
preserves every observable field of the receiver, and every mutable cell
of the result — after any sequence of change options — is a fresh
allocation, disjoint from the receiver's cells, so mutating the result's
metadata, help links or debug info cannot affect the receiver's. -/
theorem C2_withChanges_no_aliasing (e : RTrogonError) (cs : List ChangeOption)
    (n : Nat) (hwf : ∀ r ∈ mrefs e, r < n) :
    (∀ r ∈ mrefs (RWithChanges e cs n).1, n ≤ r)
  ∧ (∀ r ∈ mrefs (RWithChanges e cs n).1, r ∉ mrefs e)
  ∧ robs (rcopy e n).1 = robs e := by
  have hinv : RInv n (RWithChanges e cs n) :=
    rinv_fold cs n (rcopy e n) (rinv_rcopy e n)
  refine ⟨fun r hr => (hinv.1 r hr).1, fun r hr hmem => ?_, ?_⟩
  · exact absurd (hwf r hmem) (not_lt.mpr (hinv.1 r hr).1)
  · obtain ⟨sv, c, m, d, r, md, cs', v, s, i, t, hp, dbg, lm, ri, src, w⟩ := e
    cases hp <;> cases dbg <;>
      · simp only [rcopy, robs, mdEntriesR]
        split_ifs <;> simp_all [mdEntriesR]

/-- C2 witness: the theorem applied at a concrete error whose cells hold
references 0, 1 and 2, with the allocator at 3. -/
theorem C2_witness :
    robs (rcopy ⟨1, 2, "msg", "d", "r", some ⟨0, [("k", ⟨"v", 0⟩)]⟩, [], 0, "", "",
        none, some ⟨1, []⟩, some ⟨2, [], "det"⟩, none, none, "", none⟩ 3).1
      = robs ⟨1, 2, "msg", "d", "r", some ⟨0, [("k", ⟨"v", 0⟩)]⟩, [], 0, "", "",
        none, some ⟨1, []⟩, some ⟨2, [], "det"⟩, none, none, "", none⟩ :=
  (C2_withChanges_no_aliasing
    ⟨1, 2, "msg", "d", "r", some ⟨0, [("k", ⟨"v", 0⟩)]⟩, [], 0, "", "", none,
      some ⟨1, []⟩, some ⟨2, [], "det"⟩, none, none, "", none⟩
    [.withChangeMetadataValue 2 "k2" "v2", .withChangeHelpLink "hd" "hu"] 3
    (by decide)).2.2

/-- C8: `As` walks the wrapped chain by unwrap links and returns the
first `TrogonError` layer whose domain and reason match the template or
exemplar target, paired with `true`; when no layer matches — including
when a `TrogonError` layer exists with different identity — it returns
`none` with `false`.  Matching compares exactly domain and reason. -/
theorem C8_As_chain_extraction :
    (∀ (g : GoError) (t : AsTarget),
        As g t = match firstMatch t g with
          | some e => (some e, true)
          | none => (none, false))
  ∧ (∀ (g : GoError) (t : AsTarget),
        (∀ e : TrogonError, GoError.trogon e ∈ chainLayers g → t.matches e = false) →
        As g t = (none, false))
  ∧ (∀ (tp : ErrorTemplate) (e : TrogonError),
        AsTarget.matches (.tmpl tp) e
          = (tp.domain == e.domain && tp.reason == e.reason))
  ∧ (∀ (ex e : TrogonError),
        AsTarget.matches (.err ex) e
          = (ex.domain == e.domain && ex.reason == e.reason)) := by
  have h1 : ∀ (g : GoError) (t : AsTarget),
      As g t = match firstMatch t g with
        | some e => (some e, true)
        | none => (none, false) := by
    intro g t
    induction g, t using As.induct with
    | _ =>
      unfold As firstMatch chainLayers
      simp_all [firstMatch, List.findSome?_cons]
  refine ⟨h1, ?_, fun tp e => rfl, fun ex e => rfl⟩
  intro g t hnone
  rw [h1]
  have hfm : firstMatch t g = none := by
    rw [firstMatch, List.findSome?_eq_none_iff]
    intro l hl
    cases l with
    | trogon e => simp [hnone e hl]
    | ext m u => rfl
  rw [hfm]

/-- C8 witness: the theorem applied at a concrete chain with no matching
layer. -/
theorem C8_witness :
    As (.ext "boom" none) (.tmpl (NewErrorTemplate "d" "r" [])) = (none, false) :=
  C8_As_chain_extraction.2.1 (.ext "boom" none) (.tmpl (NewErrorTemplate "d" "r" []))
    (by intro e he; simp [chainLayers] at he)

/-- C9 counterexample: two help-link options do not commute — swapping
them swaps the rendered link order — although neither is a metadata nor
a RetryInfo option, so the claim as stated fails. -/
theorem C9_counterexample :
    NewError "d" "r" [.withHelpLink "a" "u1", .withHelpLink "b" "u2"]
      ≠ NewError "d" "r" [.withHelpLink "b" "u2", .withHelpLink "a" "u1"] := by
  intro h
  have h2 := congrArg TrogonError.help h
  exact absurd h2 (by decide)

/-- C9 (amended): construction options that write distinct fields
commute; options writing the same field need not (help links and causes
accumulate in application order, scalar writes last-win).  Same-key
metadata writes last-win, distinct-key metadata writes commute, and a
RetryInfo option always wins wholesale over a previously applied one. -/
theorem C9_option_commutation :
    (∀ (e : TrogonError) (o1 o2 : ErrorOption), o1.footprint ≠ o2.footprint →
        applyOpt o2 (applyOpt o1 e) = applyOpt o1 (applyOpt o2 e))
  ∧ (∀ (e : TrogonError) (vis1 vis2 : Visibility) (k1 k2 v1 v2 : String), k1 ≠ k2 →
        applyOpt (.withMetadataValue vis2 k2 v2) (applyOpt (.withMetadataValue vis1 k1 v1) e)
          = applyOpt (.withMetadataValue vis1 k1 v1) (applyOpt (.withMetadataValue vis2 k2 v2) e))
  ∧ (∀ (e : TrogonError) (vis1 vis2 : Visibility) (k v1 v2 : String),
        applyOpt (.withMetadataValue vis2 k v2) (applyOpt (.withMetadataValue vis1 k v1) e)
          = applyOpt (.withMetadataValue vis2 k v2) e)
  ∧ (∀ (e : TrogonError) (off : Duration) (t : GoTime),
        applyOpt (.withRetryInfoDuration off) (applyOpt (.withRetryTime t) e)
          = applyOpt (.withRetryInfoDuration off) e)
  ∧ (∀ (e : TrogonError) (off : Duration) (t : GoTime),
        applyOpt (.withRetryTime t) (applyOpt (.withRetryInfoDuration off) e)
          = applyOpt (.withRetryTime t) e) := by
  refine ⟨?_, ?_, ?_, ?_, ?_⟩
  · intro e o1 o2 h
    cases e
    cases o1 <;> cases o2 <;> first | rfl | exact absurd rfl h
  · intro e vis1 vis2 k1 k2 v1 v2 h
    cases e
    simp only [applyOpt, addMetadataValue, TrogonError.setMetadata,
      TrogonError.metadata]
    rw [mdInsert_comm _ _ _ h]
  · intro e vis1 vis2 k v1 v2
    cases e
    simp only [applyOpt, addMetadataValue, TrogonError.setMetadata,
      TrogonError.metadata]
    rw [mdInsert_insert_same]
  · intro e off t
    cases e
    rfl
  · intro e off t
    cases e
    rfl

/-- C9 witness: the amended theorem applied at concrete options with
distinct footprints and at metadata options with distinct keys. -/
theorem C9_witness :
    applyOpt (.withMessage "m") (applyOpt (.withCode 5) (NewError "d" "r" []))
      = applyOpt (.withCode 5) (applyOpt (.withMessage "m") (NewError "d" "r" []))
  ∧ applyOpt (.withMetadataValue 2 "b" "y") (applyOpt (.withMetadataValue 2 "a" "x")
        (NewError "d" "r" []))
      = applyOpt (.withMetadataValue 2 "a" "x") (applyOpt (.withMetadataValue 2 "b" "y")
        (NewError "d" "r" [])) :=
  ⟨C9_option_commutation.1 (NewError "d" "r" []) (.withCode 5) (.withMessage "m")
      (by decide),
    C9_option_commutation.2.1 (NewError "d" "r" []) 2 2 "a" "b" "x" "y" (by decide)⟩

/-- C4 witness: the theorem applied at a concrete error whose three keys
were inserted in non-sorted order. -/
theorem C4_witness :
    List.Sorted (· < ·) ((NewError "shopify.core" "METADATA_SORT_TEST"
      [.withMetadataValue 2 "productType" "digital",
       .withMetadataValue 2 "customerId" "c1",
       .withMetadataValue 2 "orderId" "o1"]).metadata.map Prod.fst) :=
  (C4_metadata_sorted (NewError "shopify.core" "METADATA_SORT_TEST"
      [.withMetadataValue 2 "productType" "digital",
       .withMetadataValue 2 "customerId" "c1",
       .withMetadataValue 2 "orderId" "o1"]) (by decide) (by decide)).2.1

end Trogon
